import Mathlib

/-!
Verification development for the pg-fusion SQL query builder.

The development embeds, as Lean definitions:
  * the composable SQL fragment data structure and its flattening
    operation (`compose`), which turns a tree of nested fragments into a
    single placeholder-numbered statement text plus an ordered value list;
  * the insert statement builder (`mkInsertQuery`, `mkConflictClause`)
    and the insert result derivation (`toInsertResult`);
  * the transactional execution model (`runTransaction`, `executeAll`)
    and the bulk table truncation helper.

Statement texts are modelled as lists of characters; values are kept
abstract via a type parameter.
-/

namespace PgFusion

/-- Character for a single decimal digit. -/
def digitChar : Nat → Char
  | 0 => '0'
  | 1 => '1'
  | 2 => '2'
  | 3 => '3'
  | 4 => '4'
  | 5 => '5'
  | 6 => '6'
  | 7 => '7'
  | 8 => '8'
  | 9 => '9'
  | _ => '0'

/-- Numeric value of a digit character. -/
def dval (c : Char) : Nat := c.toNat - 48

/-- Fuel-indexed big-endian decimal digit rendering of a natural number. -/
def natCharsAux : Nat → Nat → List Char
  | 0, _ => []
  | fuel + 1, n =>
    if n = 0 then [] else natCharsAux fuel (n / 10) ++ [digitChar (n % 10)]

/-- Big-endian decimal rendering of a natural number. -/
def natChars (n : Nat) : List Char :=
  if n = 0 then ['0'] else natCharsAux n n

theorem dval_digitChar {d : Nat} (h : d < 10) : dval (digitChar d) = d := by
  interval_cases d <;> decide

theorem isDigit_digitChar {d : Nat} (h : d < 10) : (digitChar d).isDigit = true := by
  interval_cases d <;> decide

theorem digitChar_ne_dollar {d : Nat} (h : d < 10) : digitChar d ≠ '$' := by
  interval_cases d <;> decide

theorem natCharsAux_all_digits (fuel n : Nat) :
    ∀ c ∈ natCharsAux fuel n, c.isDigit = true ∧ c ≠ '$' := by
  induction fuel generalizing n with
  | zero => intro c hc; simp [natCharsAux] at hc
  | succ fuel ih =>
    intro c hc
    simp only [natCharsAux] at hc
    by_cases h0 : n = 0
    · simp [h0] at hc
    · simp [h0, List.mem_append] at hc
      rcases hc with hc | hc
      · exact ih _ c hc
      · subst hc
        exact ⟨isDigit_digitChar (Nat.mod_lt _ (by norm_num)),
               digitChar_ne_dollar (Nat.mod_lt _ (by norm_num))⟩

theorem natChars_all_digits (n : Nat) :
    ∀ c ∈ natChars n, c.isDigit = true ∧ c ≠ '$' := by
  intro c hc
  unfold natChars at hc
  by_cases h0 : n = 0
  · simp [h0] at hc; subst hc; exact ⟨by decide, by decide⟩
  · simp [h0] at hc; exact natCharsAux_all_digits n n c hc

/-- Accumulate decimal digits left to right. -/
def accDigits (a : Nat) (l : List Char) : Nat :=
  l.foldl (fun x c => 10 * x + dval c) a

theorem accDigits_append (a : Nat) (l₁ l₂ : List Char) :
    accDigits a (l₁ ++ l₂) = accDigits (accDigits a l₁) l₂ := by
  simp [accDigits, List.foldl_append]

theorem accDigits_natCharsAux (fuel : Nat) :
    ∀ n a, n ≤ fuel →
      accDigits a (natCharsAux fuel n) = a * 10 ^ (natCharsAux fuel n).length + n := by
  induction fuel with
  | zero =>
    intro n a hn
    interval_cases n
    simp [natCharsAux, accDigits]
  | succ fuel ih =>
    intro n a hn
    by_cases h0 : n = 0
    · simp [h0, natCharsAux, accDigits]
    · have hdiv : n / 10 ≤ fuel := by
        have := Nat.div_lt_self (Nat.pos_of_ne_zero h0) (by norm_num : 1 < 10)
        omega
      simp only [natCharsAux, h0, if_false]
      rw [accDigits_append]
      rw [ih (n / 10) a hdiv]
      simp only [accDigits, List.foldl_cons, List.foldl_nil]
      rw [dval_digitChar (Nat.mod_lt _ (by norm_num))]
      simp only [List.length_append, List.length_cons, List.length_nil]
      rw [pow_succ]
      have hsplit :
          10 * (a * 10 ^ (natCharsAux fuel (n / 10)).length + n / 10) + n % 10 =
            a * (10 ^ (natCharsAux fuel (n / 10)).length * 10) +
              (10 * (n / 10) + n % 10) := by ring
      rw [hsplit]
      try rw [Nat.div_add_mod]

theorem accDigits_natChars (n : Nat) : accDigits 0 (natChars n) = n := by
  unfold natChars
  by_cases h0 : n = 0
  · subst h0; decide
  · simp only [h0, if_false]
    have := accDigits_natCharsAux n n 0 (le_refl n)
    simpa using this

theorem natChars_ne_nil (n : Nat) : natChars n ≠ [] := by
  unfold natChars
  by_cases h0 : n = 0
  · simp [h0]
  · simp only [h0, if_false]
    cases hn : natCharsAux n n with
    | nil =>
      exfalso
      cases n with
      | zero => exact h0 rfl
      | succ m =>
        simp only [natCharsAux, Nat.succ_ne_zero, if_false] at hn
        exact absurd hn (by simp)
    | cons c cs => simp

/-- Collapse runs of whitespace to a single space. The flag records
whether the previous character belonged to a whitespace run; starting the
flag at true swallows leading whitespace. -/
def collapseAux : List Char → Bool → List Char
  | [], _ => []
  | c :: cs, inRun =>
    if c.isWhitespace then
      (if inRun then [] else [' ']) ++ collapseAux cs true
    else
      c :: collapseAux cs false

/-- State of the whitespace-run flag after processing a list. -/
def stAfter (l : List Char) (st : Bool) : Bool :=
  l.foldl (fun _ c => c.isWhitespace) st

/-- Drop trailing whitespace. -/
def wsTrimEnd (l : List Char) : List Char :=
  (l.reverse.dropWhile Char.isWhitespace).reverse

/-- Whitespace normalization: collapse runs to single spaces and trim
both ends, as in the repository's whitespace-insensitive comparison of
statement texts. -/
def normWS (l : List Char) : List Char :=
  wsTrimEnd (collapseAux l true)

theorem stAfter_cons (c : Char) (cs : List Char) (st : Bool) :
    stAfter (c :: cs) st = stAfter cs c.isWhitespace := by
  simp [stAfter]

theorem collapseAux_append (a b : List Char) (st : Bool) :
    collapseAux (a ++ b) st = collapseAux a st ++ collapseAux b (stAfter a st) := by
  induction a generalizing st with
  | nil => simp [collapseAux, stAfter]
  | cons c cs ih =>
    by_cases hw : c.isWhitespace
    · simp only [List.cons_append, collapseAux, hw, if_true, stAfter_cons,
        List.append_eq]
      rw [ih true]
      simp [hw]
    · simp only [List.cons_append, collapseAux, hw, if_false, stAfter_cons,
        List.append_eq]
      rw [ih false]
      simp [hw]

theorem wsTrimEnd_append_space (l : List Char) :
    wsTrimEnd (l ++ [' ']) = wsTrimEnd l := by
  simp [wsTrimEnd, List.dropWhile]

/-- Placeholder scanner state: outside a token, just after a dollar sign,
or inside a number with the accumulated value. -/
inductive ScanSt : Type where
  | out : ScanSt
  | dollar : ScanSt
  | num : Nat → ScanSt
deriving DecidableEq

/-- One-pass scanner extracting all placeholder numbers from a text: a
placeholder is a dollar sign followed by a maximal run of decimal digits. -/
def scanAux : List Char → ScanSt → List Nat
  | [], .num a => [a]
  | [], _ => []
  | c :: cs, .out =>
    if c = '$' then scanAux cs .dollar else scanAux cs .out
  | c :: cs, .dollar =>
    if c.isDigit then scanAux cs (.num (dval c))
    else if c = '$' then scanAux cs .dollar
    else scanAux cs .out
  | c :: cs, .num a =>
    if c.isDigit then scanAux cs (.num (10 * a + dval c))
    else if c = '$' then a :: scanAux cs .dollar
    else a :: scanAux cs .out

/-- All placeholder numbers appearing in a text, in order. -/
def scanPH (l : List Char) : List Nat := scanAux l .out

theorem scanAux_dollarFree_out (a : List Char) (h : ∀ c ∈ a, c ≠ '$') (b : List Char) :
    scanAux (a ++ b) .out = scanAux b .out := by
  induction a with
  | nil => simp
  | cons c cs ih =>
    have hc : c ≠ '$' := h c (by simp)
    simp only [List.cons_append, scanAux, hc, if_false]
    exact ih (fun x hx => h x (by simp [hx]))

theorem scanAux_digits_num (ds : List Char) (h : ∀ c ∈ ds, c.isDigit = true)
    (b : List Char) (a : Nat) :
    scanAux (ds ++ b) (.num a) = scanAux b (.num (accDigits a ds)) := by
  induction ds generalizing a with
  | nil => simp [accDigits]
  | cons c cs ih =>
    have hc : c.isDigit = true := h c (by simp)
    simp only [List.cons_append, scanAux, hc, if_true, List.append_eq]
    rw [ih (fun x hx => h x (by simp [hx]))]
    simp [accDigits]

/-- A token of a flattened statement text: a literal piece of text or a
numbered placeholder. -/
inductive Tok : Type where
  | str : String → Tok
  | ph : Nat → Tok
deriving DecidableEq

/-- Render a token stream to text: placeholders become a dollar sign
followed by the decimal number. -/
def renderT : List Tok → List Char
  | [] => []
  | .str s :: ts => s.data ++ renderT ts
  | .ph k :: ts => '$' :: (natChars k ++ renderT ts)

/-- The placeholder numbers of a token stream, in order. -/
def phsOf : List Tok → List Nat
  | [] => []
  | .str _ :: ts => phsOf ts
  | .ph k :: ts => k :: phsOf ts

/-- Well-formedness of a token stream: literal pieces contain no dollar
sign, and no placeholder is immediately followed by a digit character. -/
def goodToksB : List Tok → Bool
  | [] => true
  | .str s :: ts => s.data.all (· != '$') && goodToksB ts
  | .ph _ :: ts =>
    (match (renderT ts).head? with
     | some c => !c.isDigit
     | none => true) && goodToksB ts

theorem renderT_append (a b : List Tok) :
    renderT (a ++ b) = renderT a ++ renderT b := by
  induction a with
  | nil => simp [renderT]
  | cons t ts ih =>
    cases t with
    | str s => simp [renderT, ih]
    | ph k => simp [renderT, ih]

theorem phsOf_append (a b : List Tok) :
    phsOf (a ++ b) = phsOf a ++ phsOf b := by
  induction a with
  | nil => simp [phsOf]
  | cons t ts ih =>
    cases t with
    | str s => simp [phsOf, ih]
    | ph k => simp [phsOf, ih]

theorem scanAux_num_head_not_digit (l : List Char) (k : Nat)
    (h : ∀ c, l.head? = some c → c.isDigit = false) :
    scanAux l (.num k) = k :: scanAux l .out := by
  cases l with
  | nil => simp [scanAux]
  | cons c cs =>
    have hc : c.isDigit = false := h c rfl
    by_cases hd : c = '$'
    · simp [scanAux, hc, hd]
    · simp [scanAux, hc, hd]

/-- Scanning the rendered text of a well-formed token stream recovers
exactly its placeholder numbers, in order. -/
theorem scanPH_renderT (ts : List Tok) (h : goodToksB ts = true) :
    scanPH (renderT ts) = phsOf ts := by
  induction ts with
  | nil => simp [renderT, phsOf, scanPH, scanAux]
  | cons t ts ih =>
    cases t with
    | str s =>
      simp only [goodToksB, Bool.and_eq_true] at h
      have hdf : ∀ c ∈ s.data, c ≠ '$' := by
        intro c hc
        have := h.1
        rw [List.all_eq_true] at this
        simpa using this c hc
      simp only [renderT, phsOf, scanPH]
      rw [scanAux_dollarFree_out s.data hdf]
      exact ih h.2
    | ph k =>
      simp only [goodToksB, Bool.and_eq_true] at h
      have hhead : ∀ c, (renderT ts).head? = some c → c.isDigit = false := by
        intro c hc
        have h1 := h.1
        rw [hc] at h1
        simpa using h1
      simp only [renderT, phsOf, scanPH, scanAux, if_pos rfl]
      cases hnc : natChars k with
      | nil => exact absurd hnc (natChars_ne_nil k)
      | cons d ds =>
        have hall := natChars_all_digits k
        rw [hnc] at hall
        have hd : d.isDigit = true := (hall d (by simp)).1
        simp only [List.cons_append, scanAux, hd, if_true, List.append_eq]
        rw [scanAux_digits_num ds (fun c hc => (hall c (by simp [hc])).1)]
        have hacc : accDigits (dval d) ds = k := by
          have h0 : accDigits 0 (natChars k) = k := accDigits_natChars k
          rw [hnc] at h0
          simpa [accDigits] using h0
        rw [hacc, scanAux_num_head_not_digit _ _ hhead]
        have := ih h.2
        simp only [scanPH] at this
        rw [this]

mutual

/-- Modelled from the spec: the Fragment data structure of the sql module
(whose source file is not in the repository snapshot; only its callers
and documentation are). A Fragment is an ordered sequence of literal text
pieces interleaved with interpolations, as text0 interp0 text1 interp1
... textn. -/
inductive Fragment (α : Type) : Type where
  | mk : String → InterpList α → Fragment α

/-- Modelled from the spec: the interleaved tail of a Fragment, each
entry an interpolation followed by the next literal text piece. -/
inductive InterpList (α : Type) : Type where
  | nil : InterpList α
  | cons : Interp α → String → InterpList α → InterpList α

/-- Modelled from the spec: an interpolation is an opaque bound value, a
piece of raw SQL text inlined verbatim, or a nested sub-Fragment. -/
inductive Interp (α : Type) : Type where
  | value : α → Interp α
  | raw : String → Interp α
  | sub : Fragment α → Interp α

end

mutual

/-- Modelled from the spec: the values of a Fragment in left-to-right
depth-first traversal order. -/
def valuesF {α : Type} : Fragment α → List α
  | .mk _ ps => valuesL ps

/-- Modelled from the spec: depth-first values of an interpolation tail. -/
def valuesL {α : Type} : InterpList α → List α
  | .nil => []
  | .cons (.value v) _ rest => v :: valuesL rest
  | .cons (.raw _) _ rest => valuesL rest
  | .cons (.sub f) _ rest => valuesF f ++ valuesL rest

end

mutual

/-- Modelled from the spec: flatten a Fragment into statement text and an
ordered value list, with the placeholder counter already at n. Literal
text is copied verbatim; raw text is inlined verbatim; a value emits the
placeholder for the next counter value and appends the value; a nested
fragment is composed recursively with the counter offset by the values
already emitted. -/
def composeF {α : Type} : Fragment α → Nat → List Char × List α
  | .mk t ps, n => (t.data ++ (composeL ps n).1, (composeL ps n).2)

/-- Modelled from the spec: flattening of an interpolation tail. -/
def composeL {α : Type} : InterpList α → Nat → List Char × List α
  | .nil, _ => ([], [])
  | .cons (.value v) t rest, n =>
    let r := composeL rest (n + 1)
    ('$' :: (natChars (n + 1) ++ (t.data ++ r.1)), v :: r.2)
  | .cons (.raw s) t rest, n =>
    let r := composeL rest n
    (s.data ++ (t.data ++ r.1), r.2)
  | .cons (.sub f) t rest, n =>
    let rf := composeF f n
    let r := composeL rest (n + rf.2.length)
    (rf.1 ++ (t.data ++ r.1), rf.2 ++ r.2)

end

/-- Modelled from the spec: compose a Fragment into final text and
values, numbering placeholders from 1. -/
def compose {α : Type} (f : Fragment α) : List Char × List α := composeF f 0

mutual

/-- Token stream of a Fragment under a given starting counter. -/
def toksF {α : Type} : Fragment α → Nat → List Tok
  | .mk t ps, n => .str t :: toksL ps n

/-- Token stream of an interpolation tail. -/
def toksL {α : Type} : InterpList α → Nat → List Tok
  | .nil, _ => []
  | .cons (.value _) t rest, n => .ph (n + 1) :: .str t :: toksL rest (n + 1)
  | .cons (.raw s) t rest, n => .str s :: .str t :: toksL rest n
  | .cons (.sub f) t rest, n =>
    toksF f n ++ (.str t :: toksL rest (n + (valuesF f).length))

end

mutual

theorem composeF_snd {α : Type} (f : Fragment α) (n : Nat) :
    (composeF f n).2 = valuesF f := by
  cases f with
  | mk t ps =>
    simp only [composeF, valuesF]
    exact composeL_snd ps n

theorem composeL_snd {α : Type} (ps : InterpList α) (n : Nat) :
    (composeL ps n).2 = valuesL ps := by
  cases ps with
  | nil => simp [composeL, valuesL]
  | cons i t rest =>
    cases i with
    | value v => simp [composeL, valuesL, composeL_snd rest]
    | raw s => simp [composeL, valuesL, composeL_snd rest]
    | sub f => simp [composeL, valuesL, composeF_snd f, composeL_snd rest]

end

mutual

theorem composeF_fst {α : Type} (f : Fragment α) (n : Nat) :
    (composeF f n).1 = renderT (toksF f n) := by
  cases f with
  | mk t ps =>
    simp only [composeF, toksF, renderT]
    rw [composeL_fst ps n]

theorem composeL_fst {α : Type} (ps : InterpList α) (n : Nat) :
    (composeL ps n).1 = renderT (toksL ps n) := by
  cases ps with
  | nil => simp [composeL, toksL, renderT]
  | cons i t rest =>
    cases i with
    | value v =>
      simp only [composeL, toksL, renderT]
      rw [composeL_fst rest (n + 1)]
    | raw s =>
      simp only [composeL, toksL, renderT]
      rw [composeL_fst rest n]
    | sub f =>
      simp only [composeL, toksL, renderT_append, renderT]
      rw [composeF_snd f n, composeF_fst f n,
        composeL_fst rest (n + (valuesF f).length)]

end

mutual

theorem phsOf_toksF {α : Type} (f : Fragment α) (n : Nat) :
    phsOf (toksF f n) = List.range' (n + 1) (valuesF f).length := by
  cases f with
  | mk t ps =>
    simp only [toksF, phsOf, valuesF]
    exact phsOf_toksL ps n

theorem phsOf_toksL {α : Type} (ps : InterpList α) (n : Nat) :
    phsOf (toksL ps n) = List.range' (n + 1) (valuesL ps).length := by
  cases ps with
  | nil => simp [toksL, phsOf, valuesL]
  | cons i t rest =>
    cases i with
    | value v =>
      simp only [toksL, phsOf, valuesL, List.length_cons]
      rw [phsOf_toksL rest (n + 1)]
      rw [List.range'_succ]
    | raw s =>
      simp only [toksL, phsOf, valuesL]
      exact phsOf_toksL rest n
    | sub f =>
      simp only [toksL, phsOf_append, phsOf, valuesL]
      rw [phsOf_toksL rest (n + (valuesF f).length), phsOf_toksF f n]
      rw [List.length_append]
      have := List.range'_append (n + 1) (valuesF f).length (valuesL rest).length 1
      simp only [one_mul, Nat.mul_one] at this
      rw [show n + (valuesF f).length + 1 = n + 1 + (valuesF f).length by omega]
      rw [Nat.add_comm ((valuesF f).length) ((valuesL rest).length)]
      exact this

end

/-- Concrete fragment whose literal text already contains a
placeholder-shaped substring. -/
def cexFragment : Fragment Nat := .mk "$1" .nil

/-- Claim C1, counterexample: the claim quantifies over every Fragment
tree, but a fragment whose literal text itself contains the characters
dollar-one composes to a text in which the placeholder number 1 appears
even though the tree has zero Value interpolations, so "no other
placeholder appears" fails as stated. -/
theorem compose_placeholders_cex :
    valuesF cexFragment = [] ∧ scanPH (compose cexFragment).1 = [1] := by
  constructor
  · rfl
  · decide

/-- Claim C1 (amended): for every Fragment tree whose literal and Raw
text pieces contain no dollar sign and in which no emitted placeholder is
immediately followed by a digit character (the goodToksB condition on the
fragment's token stream), compose produces a values list equal to the
Value interpolations in left-to-right depth-first order, and the
placeholders occurring in the statement text are exactly 1..n, each
exactly once, in order; Raw and Sub interpolations consume no placeholder
number and a Sub's Value children are numbered continuously with the
outer count. -/
theorem compose_placeholders_spec {α : Type} (f : Fragment α)
    (h : goodToksB (toksF f 0) = true) :
    (compose f).2 = valuesF f ∧
      scanPH (compose f).1 = List.range' 1 (valuesF f).length := by
  refine ⟨composeF_snd f 0, ?_⟩
  show scanPH (composeF f 0).1 = _
  rw [composeF_fst f 0, scanPH_renderT _ h, phsOf_toksF f 0]

/-- Concrete fragment with a value interpolation and a nested
sub-fragment containing another value. -/
def wFragment : Fragment Nat :=
  .mk "SELECT * FROM t WHERE a = "
    (.cons (.value 7) " AND "
      (.cons (.sub (.mk "b = " (.cons (.value 8) "" .nil))) "" .nil))

/-- Claim C1, witness: the amended theorem applied to a concrete
fragment with a nested sub-fragment. -/
theorem compose_placeholders_spec_witness :
    goodToksB (toksF wFragment 0) = true ∧
      ((compose wFragment).2 = valuesF wFragment ∧
        scanPH (compose wFragment).1 = List.range' 1 (valuesF wFragment).length) :=
  ⟨by decide, compose_placeholders_spec wFragment (by decide)⟩

/-- Collapse a list of text chunks, threading the whitespace-run flag. -/
def collapseChunks : List (List Char) → Bool → List Char
  | [], _ => []
  | x :: xs, st => collapseAux x st ++ collapseChunks xs (stAfter x st)

theorem collapseAux_join (xs : List (List Char)) (st : Bool) :
    collapseAux xs.flatten st = collapseChunks xs st := by
  induction xs generalizing st with
  | nil => simp [collapseChunks, collapseAux, List.flatten]
  | cons x xs ih =>
    simp only [List.flatten, collapseAux_append, collapseChunks]
    rw [ih]

theorem collapseChunks_congr (x y : List Char) (xs ys : List (List Char)) (st : Bool)
    (hx : collapseAux x st = collapseAux y st)
    (hst : stAfter x st = stAfter y st)
    (h : collapseChunks xs (stAfter y st) = collapseChunks ys (stAfter y st)) :
    collapseChunks (x :: xs) st = collapseChunks (y :: ys) st := by
  simp only [collapseChunks, hx, hst, h]

/-- Join chunks with a delimiter before every chunk after the first. -/
def sepList (d : List Char) : List (List Char) → List Char
  | [] => []
  | x :: xs => x ++ (xs.map (fun y => d ++ y)).flatten

/-- Modelled from the spec: a single-piece Fragment holding raw SQL text
inlined verbatim. The sql tagged template applied to a static string is
the same fragment. -/
def sqlRaw {α : Type} (s : String) : Fragment α := Fragment.mk s InterpList.nil

/-- Modelled from the spec: quote wraps an identifier in double quotes,
escaping embedded double quotes by doubling them. -/
def quoteStr (s : String) : String :=
  String.mk ('"' :: ((s.data.map (fun c => if c = '"' then ['"', '"'] else [c])).flatten ++ ['"']))

/-- Modelled from the spec: the quote helper produces a literal-text-only
Fragment holding the quoted identifier. -/
def sqlQuote {α : Type} (s : String) : Fragment α := Fragment.mk (quoteStr s) InterpList.nil

/-- Modelled from the spec: param produces a Fragment containing exactly
one Value interpolation and no literal text around it. -/
def sqlParam {α : Type} (v : α) : Fragment α :=
  Fragment.mk "" (InterpList.cons (Interp.value v) "" InterpList.nil)

/-- Modelled from the spec: the tail of a joined fragment list, a Raw
delimiter before each subsequent fragment. -/
def joinRest {α : Type} : List (Fragment α) → String → InterpList α
  | [], _ => InterpList.nil
  | f :: fs, d =>
    InterpList.cons (Interp.raw d) ""
      (InterpList.cons (Interp.sub f) "" (joinRest fs d))

/-- Modelled from the spec: join interleaves the given fragments with a
Raw delimiter interpolation between each; empty input yields an empty
Fragment. -/
def sqlJoin {α : Type} : List (Fragment α) → String → Fragment α
  | [], _ => Fragment.mk "" InterpList.nil
  | f :: fs, d =>
    Fragment.mk "" (InterpList.cons (Interp.sub f) "" (joinRest fs d))

/-- Conflict target from the source: a named column or a named
constraint. -/
inductive ConflictTarget : Type where
  | column : String → ConflictTarget
  | constraint : String → ConflictTarget
deriving DecidableEq

/-- Conflict options from the source: the bare string spelling of
ignore, the object spelling of ignore with an optional target, or update
with a required target. -/
inductive ConflictOptions : Type where
  | ignoreStr : ConflictOptions
  | ignoreObj : Option ConflictTarget → ConflictOptions
  | update : ConflictTarget → ConflictOptions
deriving DecidableEq

/-- Insert options from the source: an optional (nullable) onConflict
field. -/
structure InsertOptions : Type where
  onConflict : Option ConflictOptions
deriving DecidableEq

/-- Target clause of the conflict clause, from the source: a truthy
constraint name produces an ON CONSTRAINT clause, otherwise a truthy
column name produces a parenthesized column, otherwise the clause is
empty. An empty string is falsy in the source language, so an empty
target name yields the empty clause. -/
def mkTargetClause {α : Type} : Option ConflictTarget → Fragment α
  | some (.constraint k) =>
    if k = "" then Fragment.mk "" InterpList.nil
    else Fragment.mk "ON CONSTRAINT " (InterpList.cons (Interp.sub (sqlQuote k)) "" InterpList.nil)
  | some (.column c) =>
    if c = "" then Fragment.mk "" InterpList.nil
    else Fragment.mk "(" (InterpList.cons (Interp.sub (sqlQuote c)) ")" InterpList.nil)
  | none => Fragment.mk "" InterpList.nil

/-- Conflict clause builder from the source: null options yield the
empty fragment; the bare string ignore is normalized to the ignore action
with no target; ignore produces ON CONFLICT target DO NOTHING; update
produces ON CONFLICT target DO UPDATE SET (columns) = (values). -/
def mkConflictClause {α : Type} (columnNamesSql valuesSql : Fragment α) :
    Option ConflictOptions → Fragment α
  | none => Fragment.mk "" InterpList.nil
  | some options =>
    let target : Option ConflictTarget :=
      match options with
      | .ignoreStr => none
      | .ignoreObj tgt => tgt
      | .update tgt => some tgt
    let targetClause : Fragment α := mkTargetClause target
    match options with
    | .ignoreStr =>
      Fragment.mk "ON CONFLICT "
        (InterpList.cons (Interp.sub targetClause) " DO NOTHING" InterpList.nil)
    | .ignoreObj _ =>
      Fragment.mk "ON CONFLICT "
        (InterpList.cons (Interp.sub targetClause) " DO NOTHING" InterpList.nil)
    | .update _ =>
      Fragment.mk "\n        ON CONFLICT "
        (InterpList.cons (Interp.sub targetClause) " DO UPDATE\n        SET ("
          (InterpList.cons (Interp.sub columnNamesSql) ") = ("
            (InterpList.cons (Interp.sub valuesSql) ")\n      " InterpList.nil)))

/-- Insert query builder from the source. A record is an ordered mapping
from column name to value; the effective conflict options default to null
when the options argument or its onConflict field is absent. -/
def mkInsertQuery {α : Type} (table : String) (record : List (String × α))
    (options : Option InsertOptions) : Fragment α :=
  let onConflict : Option ConflictOptions := options.bind InsertOptions.onConflict
  let columnNames := record.map Prod.fst
  let values := record.map Prod.snd
  let columnNamesSql := sqlJoin (columnNames.map sqlQuote) ","
  let valuesSql := sqlJoin (values.map sqlParam) ","
  let conflictClause := mkConflictClause columnNamesSql valuesSql onConflict
  Fragment.mk "\n    INSERT INTO "
    (InterpList.cons (Interp.sub (sqlQuote table)) " ("
      (InterpList.cons (Interp.sub columnNamesSql) ")\n    VALUES ("
        (InterpList.cons (Interp.sub valuesSql) ")\n    "
          (InterpList.cons (Interp.sub conflictClause) "\n    RETURNING *\n  "
            InterpList.nil))))

/-- Errors signaled by the insert result derivation. -/
inductive InsertError : Type where
  | multipleRows : InsertError
  | noRows : InsertError
deriving DecidableEq

/-- Truthiness of the conflict options together with the ignore check
from the source: the result may be null exactly when conflict options are
present and their action is ignore (either spelling). -/
def isNullableResult : Option ConflictOptions → Bool
  | some .ignoreStr => true
  | some (.ignoreObj _) => true
  | some (.update _) => false
  | none => false

/-- Insert result derivation from the source: more than one row is
always an error; otherwise the single row, if any, is taken; no row is an
error unless the conflict options make the result nullable. -/
def toInsertResult {α : Type} (rows : List α) (options : Option InsertOptions) :
    Except InsertError (Option α) :=
  if 1 < rows.length then Except.error InsertError.multipleRows
  else
    let row : Option α :=
      match rows with
      | [r] => some r
      | _ => none
    let conflictOptions := options.bind InsertOptions.onConflict
    if !isNullableResult conflictOptions && row.isNone then
      Except.error InsertError.noRows
    else
      Except.ok row

theorem string_empty_data : ("" : String).data = [] := rfl

theorem composeF_mk_nil {α : Type} (t : String) (n : Nat) :
    composeF (Fragment.mk t InterpList.nil : Fragment α) n = (t.data, []) := by
  simp [composeF, composeL]

theorem composeF_sqlQuote {α : Type} (s : String) (n : Nat) :
    composeF (sqlQuote s : Fragment α) n = ((quoteStr s).data, []) := by
  simp [sqlQuote, composeF_mk_nil]

theorem composeF_sqlParam {α : Type} (v : α) (n : Nat) :
    composeF (sqlParam v) n = ('$' :: natChars (n + 1), [v]) := by
  simp [sqlParam, composeF, composeL, string_empty_data]

theorem composeL_nil_eq {α : Type} (n : Nat) :
    composeL (InterpList.nil : InterpList α) n = ([], []) := rfl

theorem composeL_cons_value {α : Type} (v : α) (t : String) (rest : InterpList α) (n : Nat) :
    composeL (InterpList.cons (Interp.value v) t rest) n =
      ('$' :: (natChars (n + 1) ++ (t.data ++ (composeL rest (n + 1)).1)),
       v :: (composeL rest (n + 1)).2) := rfl

theorem composeL_cons_raw {α : Type} (s t : String) (rest : InterpList α) (n : Nat) :
    composeL (InterpList.cons (Interp.raw s) t rest) n =
      (s.data ++ (t.data ++ (composeL rest n).1), (composeL rest n).2) := rfl

theorem composeL_cons_sub {α : Type} (f : Fragment α) (t : String) (rest : InterpList α) (n : Nat) :
    composeL (InterpList.cons (Interp.sub f) t rest) n =
      ((composeF f n).1 ++ (t.data ++ (composeL rest (n + ((composeF f n).2).length)).1),
       (composeF f n).2 ++ (composeL rest (n + ((composeF f n).2).length)).2) := rfl

theorem composeF_mk {α : Type} (t : String) (ps : InterpList α) (n : Nat) :
    composeF (Fragment.mk t ps) n = (t.data ++ (composeL ps n).1, (composeL ps n).2) := rfl

theorem composeL_joinRest_noval {α : Type} (g : String → Fragment α)
    (gtxt : String → List Char)
    (hg : ∀ s n, composeF (g s) n = (gtxt s, []))
    (items : List String) (n : Nat) :
    composeL (joinRest (items.map g) ",") n =
      ((items.map (fun s => [','] ++ gtxt s)).flatten, []) := by
  induction items generalizing n with
  | nil => simp [joinRest, composeL_nil_eq]
  | cons s ss ih =>
    simp only [List.map_cons, joinRest]
    rw [composeL_cons_raw, composeL_cons_sub, hg s n]
    simp only [List.length_nil, Nat.add_zero, string_empty_data, List.nil_append]
    rw [ih n]
    simp [List.append_assoc]

theorem composeF_sqlJoin_noval {α : Type} (g : String → Fragment α)
    (gtxt : String → List Char)
    (hg : ∀ s n, composeF (g s) n = (gtxt s, []))
    (items : List String) (n : Nat) :
    composeF (sqlJoin (items.map g) ",") n =
      (sepList [','] (items.map gtxt), []) := by
  cases items with
  | nil => simp [sqlJoin, composeF_mk, composeL_nil_eq, sepList]
  | cons s ss =>
    simp only [List.map_cons, sqlJoin]
    rw [composeF_mk, composeL_cons_sub, hg s n]
    simp only [List.length_nil, Nat.add_zero, string_empty_data, List.nil_append]
    rw [composeL_joinRest_noval g gtxt hg ss n]
    simp only [sepList, List.map_map]
    simp [Function.comp_def, List.append_assoc]

theorem composeL_joinRest_params {α : Type} (vals : List α) (n : Nat) :
    composeL (joinRest (vals.map sqlParam) ",") n =
      (((List.range' (n + 1) vals.length).map
          (fun i => [','] ++ ('$' :: natChars i))).flatten, vals) := by
  induction vals generalizing n with
  | nil => simp [joinRest, composeL_nil_eq]
  | cons v vs ih =>
    simp only [List.map_cons, joinRest]
    rw [composeL_cons_raw, composeL_cons_sub, composeF_sqlParam v n]
    simp only [List.length_cons, List.length_nil, string_empty_data, List.nil_append,
      Nat.zero_add]
    rw [ih (n + 1)]
    simp only [List.length_cons, List.range'_succ, List.map_cons, List.flatten_cons]
    simp [List.append_assoc, Nat.add_assoc]

theorem composeF_sqlJoin_params {α : Type} (vals : List α) (n : Nat) :
    composeF (sqlJoin (vals.map sqlParam) ",") n =
      (sepList [','] ((List.range' (n + 1) vals.length).map
          (fun i => '$' :: natChars i)), vals) := by
  cases vals with
  | nil => simp [sqlJoin, composeF_mk, composeL_nil_eq, sepList]
  | cons v vs =>
    simp only [List.map_cons, sqlJoin]
    rw [composeF_mk, composeL_cons_sub, composeF_sqlParam v n]
    simp only [List.length_cons, List.length_nil, string_empty_data, List.nil_append,
      Nat.zero_add]
    rw [composeL_joinRest_params vs (n + 1)]
    simp only [List.length_cons, List.range'_succ, List.map_cons, List.flatten_cons, sepList]
    simp [List.map_map, Function.comp_def, List.append_assoc, Nat.add_assoc]

/-- Modelled from the spec: expected text of the quoted column list. -/
def specColumnsText (cols : List String) : List Char :=
  sepList [','] (cols.map (fun c => (quoteStr c).data))

/-- Modelled from the spec: expected text of k placeholders numbered
consecutively from start. -/
def specParamsText (start k : Nat) : List Char :=
  sepList [','] ((List.range' start k).map (fun i => '$' :: natChars i))

theorem mkConflictClause_none {α : Type} (c v : Fragment α) :
    mkConflictClause c v none = Fragment.mk "" InterpList.nil := rfl

theorem compose_mkInsertQuery_none {α : Type} (tb : String) (r : List (String × α))
    (opts : Option InsertOptions) (h : opts.bind InsertOptions.onConflict = none) :
    compose (mkInsertQuery tb r opts) =
      ((["\n    INSERT INTO ".data, (quoteStr tb).data, " (".data,
          specColumnsText (r.map Prod.fst), ")\n    VALUES (".data,
          specParamsText 1 r.length, ")\n    ".data,
          "\n    RETURNING *\n  ".data] : List (List Char)).flatten,
        r.map Prod.snd) := by
  unfold compose mkInsertQuery
  rw [h]
  dsimp only
  rw [mkConflictClause_none]
  rw [composeF_mk]
  rw [composeL_cons_sub, composeF_sqlQuote]
  simp only [List.length_nil, Nat.add_zero]
  rw [composeL_cons_sub,
    composeF_sqlJoin_noval sqlQuote (fun c => (quoteStr c).data)
      (fun s n => composeF_sqlQuote s n)]
  simp only [List.length_nil, Nat.add_zero]
  rw [composeL_cons_sub, composeF_sqlJoin_params]
  rw [composeL_cons_sub, composeF_mk_nil, string_empty_data]
  simp only [List.length_nil, List.length_map, Nat.add_zero, composeL_nil_eq]
  simp [specColumnsText, specParamsText, List.append_assoc, List.length_map,
    List.flatten]

theorem wsTrimEnd_two_tails (x a b c : List Char) (h : a ++ b = c ++ [' ']) :
    wsTrimEnd ((x ++ a) ++ b) = wsTrimEnd (x ++ c) := by
  rw [List.append_assoc, h, ← List.append_assoc]
  exact wsTrimEnd_append_space (x ++ c)

theorem normWS_insertNone_template (q c p : List Char) :
    normWS ((["\n    INSERT INTO ".data, q, " (".data, c, ")\n    VALUES (".data, p,
        ")\n    ".data, "\n    RETURNING *\n  ".data] : List (List Char)).flatten) =
      normWS ((["INSERT INTO ".data, q, " (".data, c, ") VALUES (".data, p,
        ") RETURNING *".data] : List (List Char)).flatten) := by
  unfold normWS
  rw [collapseAux_join, collapseAux_join]
  simp only [collapseChunks]
  have s1 : stAfter ("\n    INSERT INTO ".data) true = true := rfl
  have s1b : stAfter ("INSERT INTO ".data) true = true := rfl
  have s2 : ∀ b, stAfter (" (".data) b = false := by intro b; cases b <;> rfl
  have s3 : ∀ b, stAfter (")\n    VALUES (".data) b = false := by intro b; cases b <;> rfl
  have s3b : ∀ b, stAfter (") VALUES (".data) b = false := by intro b; cases b <;> rfl
  have s4 : ∀ b, stAfter (")\n    ".data) b = true := by intro b; cases b <;> rfl
  have c1 : collapseAux ("\n    INSERT INTO ".data) true = "INSERT INTO ".data := rfl
  have c1b : collapseAux ("INSERT INTO ".data) true = "INSERT INTO ".data := rfl
  have c3 : ∀ b, collapseAux (")\n    VALUES (".data) b = ") VALUES (".data := by
    intro b; cases b <;> rfl
  have c3b : ∀ b, collapseAux (") VALUES (".data) b = ") VALUES (".data := by
    intro b; cases b <;> rfl
  have c4 : ∀ b, collapseAux (")\n    ".data) b = ") ".data := by intro b; cases b <;> rfl
  have c5 : collapseAux ("\n    RETURNING *\n  ".data) true = "RETURNING * ".data := rfl
  have c5b : ∀ b, collapseAux (") RETURNING *".data) b = ") RETURNING *".data := by
    intro b; cases b <;> rfl
  simp only [s1, s1b, s2, s3, s3b, s4, c1, c1b, c3, c3b, c4, c5, c5b, List.append_nil]
  simp only [← List.append_assoc]
  exact wsTrimEnd_two_tails _ _ _ _ (by decide)

/-- Modelled from the spec: expected full insert statement text for a
policy of none, whitespace-normalized form. -/
def specInsertText (tb : String) (cols : List String) (k : Nat) : List Char :=
  ((["INSERT INTO ".data, (quoteStr tb).data, " (".data, specColumnsText cols,
      ") VALUES (".data, specParamsText 1 k,
      ") RETURNING *".data] : List (List Char)).flatten)

/-- Concrete value type used by witnesses: a string or an integer. -/
inductive SqlValue : Type where
  | s : String → SqlValue
  | i : Int → SqlValue
deriving DecidableEq

/-- Claim C3: for every table name and nonempty record with conflict
policy none (options omitted or onConflict null), mkInsertQuery composes,
up to whitespace, to INSERT INTO quoted-table (quoted columns in record
order) VALUES (placeholders 1..k) RETURNING *, with the values list equal
to the record values in record order. -/
theorem mkInsertQuery_none_spec {α : Type} (tb : String) (r : List (String × α))
    (opts : Option InsertOptions) (hr : r ≠ [])
    (h : opts.bind InsertOptions.onConflict = none) :
    (compose (mkInsertQuery tb r opts)).2 = r.map Prod.snd ∧
      normWS (compose (mkInsertQuery tb r opts)).1 =
        normWS (specInsertText tb (r.map Prod.fst) r.length) := by
  rw [compose_mkInsertQuery_none tb r opts h]
  exact ⟨rfl, normWS_insertNone_template _ _ _⟩

/-- Concrete record used by the C3 witness. -/
def wRecord : List (String × SqlValue) :=
  [("name", SqlValue.s "Take On Me"), ("artist", SqlValue.s "A-ha"),
   ("rating", SqlValue.i 5)]

/-- Claim C3, witness: the theorem applied to the song record from the
repository's tests, with options omitted. -/
theorem mkInsertQuery_none_spec_witness :
    (wRecord ≠ [] ∧ (none : Option InsertOptions).bind InsertOptions.onConflict = none) ∧
      ((compose (mkInsertQuery "song" wRecord none)).2 = wRecord.map Prod.snd ∧
        normWS (compose (mkInsertQuery "song" wRecord none)).1 =
          normWS (specInsertText "song" (wRecord.map Prod.fst) wRecord.length)) :=
  ⟨⟨by decide, rfl⟩, mkInsertQuery_none_spec "song" wRecord none (by decide) rfl⟩

theorem composeF_mkTargetClause {α : Type} (t : Option ConflictTarget) (n : Nat) :
    composeF (mkTargetClause t : Fragment α) n =
      ((composeF (mkTargetClause t : Fragment α) 0).1, []) := by
  cases t with
  | none => rfl
  | some tgt =>
    cases tgt with
    | column c =>
      by_cases hc : c = "" <;>
        simp [mkTargetClause, hc, composeF_mk, composeL_cons_sub, composeF_sqlQuote,
          composeL_nil_eq]
    | constraint k =>
      by_cases hk : k = "" <;>
        simp [mkTargetClause, hk, composeF_mk, composeL_cons_sub, composeF_sqlQuote,
          composeL_nil_eq]

theorem mkConflictClause_update_eq {α : Type} (cc vv : Fragment α) (tgt : ConflictTarget) :
    mkConflictClause cc vv (some (ConflictOptions.update tgt)) =
      Fragment.mk "\n        ON CONFLICT "
        (InterpList.cons (Interp.sub (mkTargetClause (some tgt))) " DO UPDATE\n        SET ("
          (InterpList.cons (Interp.sub cc) ") = ("
            (InterpList.cons (Interp.sub vv) ")\n      " InterpList.nil))) := rfl

theorem compose_mkInsertQuery_update {α : Type} (tb : String) (r : List (String × α))
    (tgt : ConflictTarget) (opts : Option InsertOptions)
    (h : opts.bind InsertOptions.onConflict = some (ConflictOptions.update tgt)) :
    compose (mkInsertQuery tb r opts) =
      ((["\n    INSERT INTO ".data, (quoteStr tb).data, " (".data,
          specColumnsText (r.map Prod.fst), ")\n    VALUES (".data,
          specParamsText 1 r.length, ")\n    ".data,
          "\n        ON CONFLICT ".data,
          (composeF (mkTargetClause (some tgt) : Fragment α) 0).1,
          " DO UPDATE\n        SET (".data, specColumnsText (r.map Prod.fst),
          ") = (".data, specParamsText (r.length + 1) r.length,
          ")\n      ".data, "\n    RETURNING *\n  ".data] : List (List Char)).flatten,
        r.map Prod.snd ++ r.map Prod.snd) := by
  unfold compose mkInsertQuery
  rw [h]
  dsimp only
  rw [mkConflictClause_update_eq]
  rw [composeF_mk]
  rw [composeL_cons_sub, composeF_sqlQuote]
  simp only [List.length_nil, Nat.add_zero]
  rw [composeL_cons_sub,
    composeF_sqlJoin_noval sqlQuote (fun c => (quoteStr c).data)
      (fun s n => composeF_sqlQuote s n)]
  simp only [List.length_nil, Nat.add_zero]
  rw [composeL_cons_sub, composeF_sqlJoin_params]
  rw [composeL_cons_sub]
  rw [composeF_mk]
  rw [composeL_cons_sub, composeF_mkTargetClause]
  simp only [List.length_nil, Nat.add_zero]
  rw [composeL_cons_sub,
    composeF_sqlJoin_noval sqlQuote (fun c => (quoteStr c).data)
      (fun s n => composeF_sqlQuote s n)]
  simp only [List.length_nil, Nat.add_zero]
  rw [composeL_cons_sub, composeF_sqlJoin_params]
  simp only [composeL_nil_eq, List.length_map]
  simp [specColumnsText, specParamsText, List.append_assoc, List.length_map,
    List.flatten, Nat.zero_add]

theorem ccSpace_congr {x y : List Char} {xs ys : List (List Char)} {st : Bool}
    (hx : collapseAux x st = collapseAux y st)
    (hst : stAfter x st = stAfter y st)
    (h : collapseChunks xs (stAfter y st) = collapseChunks ys (stAfter y st) ++ [' ']) :
    collapseChunks (x :: xs) st = collapseChunks (y :: ys) st ++ [' '] := by
  simp only [collapseChunks, hx, hst, h, List.append_assoc]

theorem ccSpace_two_one {x1 x2 y : List Char} {xs ys : List (List Char)} {st : Bool}
    (hx : ∀ b, collapseAux x1 b ++ collapseAux x2 (stAfter x1 b) = collapseAux y b)
    (hst : ∀ b, stAfter x2 (stAfter x1 b) = stAfter y b)
    (h : collapseChunks xs (stAfter y st) = collapseChunks ys (stAfter y st) ++ [' ']) :
    collapseChunks (x1 :: x2 :: xs) st = collapseChunks (y :: ys) st ++ [' '] := by
  simp only [collapseChunks, ← List.append_assoc, hx st, hst st, h]

theorem normWS_insertUpdate_template (q c p1 tc p2 : List Char) :
    normWS ((["\n    INSERT INTO ".data, q, " (".data, c, ")\n    VALUES (".data, p1,
        ")\n    ".data, "\n        ON CONFLICT ".data, tc,
        " DO UPDATE\n        SET (".data, c, ") = (".data, p2,
        ")\n      ".data, "\n    RETURNING *\n  ".data] : List (List Char)).flatten) =
      normWS ((["INSERT INTO ".data, q, " (".data, c, ") VALUES (".data, p1,
        ") ON CONFLICT ".data, tc, " DO UPDATE SET (".data, c, ") = (".data, p2,
        ") RETURNING *".data] : List (List Char)).flatten) := by
  unfold normWS
  rw [collapseAux_join, collapseAux_join]
  have key :
      collapseChunks (["\n    INSERT INTO ".data, q, " (".data, c,
          ")\n    VALUES (".data, p1, ")\n    ".data, "\n        ON CONFLICT ".data,
          tc, " DO UPDATE\n        SET (".data, c, ") = (".data, p2,
          ")\n      ".data, "\n    RETURNING *\n  ".data] : List (List Char)) true =
        collapseChunks (["INSERT INTO ".data, q, " (".data, c, ") VALUES (".data, p1,
          ") ON CONFLICT ".data, tc, " DO UPDATE SET (".data, c, ") = (".data, p2,
          ") RETURNING *".data] : List (List Char)) true ++ [' '] := by
    apply ccSpace_congr rfl rfl
    apply ccSpace_congr rfl rfl
    apply ccSpace_congr rfl rfl
    apply ccSpace_congr rfl rfl
    apply ccSpace_congr
      ((fun b => by cases b <;> rfl :
        ∀ b, collapseAux (")\n    VALUES (".data) b = collapseAux (") VALUES (".data) b) _)
      ((fun b => by cases b <;> rfl :
        ∀ b, stAfter (")\n    VALUES (".data) b = stAfter (") VALUES (".data) b) _)
    apply ccSpace_congr rfl rfl
    apply ccSpace_two_one
      (fun b => by cases b <;> rfl)
      (fun b => by cases b <;> rfl)
    apply ccSpace_congr rfl rfl
    apply ccSpace_congr
      ((fun b => by cases b <;> rfl :
        ∀ b, collapseAux (" DO UPDATE\n        SET (".data) b =
          collapseAux (" DO UPDATE SET (".data) b) _)
      ((fun b => by cases b <;> rfl :
        ∀ b, stAfter (" DO UPDATE\n        SET (".data) b =
          stAfter (" DO UPDATE SET (".data) b) _)
    apply ccSpace_congr rfl rfl
    apply ccSpace_congr rfl rfl
    apply ccSpace_congr rfl rfl
    exact (fun b => by cases b <;> rfl :
      ∀ b, collapseChunks [")\n      ".data, "\n    RETURNING *\n  ".data] b =
        collapseChunks [") RETURNING *".data] b ++ [' ']) _
  rw [key, wsTrimEnd_append_space]

/-- Modelled from the spec: expected full insert statement text for an
update conflict policy, whitespace-normalized form; the SET column list
repeats the original column list and the SET placeholders continue after
the VALUES placeholders. -/
def specInsertUpdateText (tb : String) (cols : List String) (k : Nat)
    (tc : List Char) : List Char :=
  ((["INSERT INTO ".data, (quoteStr tb).data, " (".data, specColumnsText cols,
      ") VALUES (".data, specParamsText 1 k, ") ON CONFLICT ".data, tc,
      " DO UPDATE SET (".data, specColumnsText cols, ") = (".data,
      specParamsText (k + 1) k, ") RETURNING *".data] : List (List Char)).flatten)

/-- Claim C4: for every record inserted with an update conflict policy,
the DO UPDATE SET clause re-parametrizes the record values as a fresh set
of placeholders numbered k+1..2k continuing after the VALUES placeholders
1..k, each record value appears twice in the composed values list, and
the SET column list repeats the original column list in the same order. -/
theorem mkInsertQuery_update_spec {α : Type} (tb : String) (r : List (String × α))
    (tgt : ConflictTarget) (opts : Option InsertOptions)
    (h : opts.bind InsertOptions.onConflict = some (ConflictOptions.update tgt)) :
    (compose (mkInsertQuery tb r opts)).2 = r.map Prod.snd ++ r.map Prod.snd ∧
      normWS (compose (mkInsertQuery tb r opts)).1 =
        normWS (specInsertUpdateText tb (r.map Prod.fst) r.length
          ((composeF (mkTargetClause (some tgt) : Fragment α) 0).1)) := by
  rw [compose_mkInsertQuery_update tb r tgt opts h]
  exact ⟨rfl, normWS_insertUpdate_template _ _ _ _ _⟩

/-- Claim C4, witness: the theorem applied to the song record with an
update-on-column-name conflict policy, matching the repository's test. -/
theorem mkInsertQuery_update_spec_witness :
    (some (InsertOptions.mk (some (ConflictOptions.update (ConflictTarget.column "name"))))).bind
        InsertOptions.onConflict =
      some (ConflictOptions.update (ConflictTarget.column "name")) ∧
    ((compose (mkInsertQuery "song" wRecord
          (some (InsertOptions.mk (some (ConflictOptions.update (ConflictTarget.column "name"))))))).2 =
        wRecord.map Prod.snd ++ wRecord.map Prod.snd ∧
      normWS (compose (mkInsertQuery "song" wRecord
          (some (InsertOptions.mk (some (ConflictOptions.update (ConflictTarget.column "name"))))))).1 =
        normWS (specInsertUpdateText "song" (wRecord.map Prod.fst) wRecord.length
          ((composeF (mkTargetClause (some (ConflictTarget.column "name")) : Fragment SqlValue) 0).1))) :=
  ⟨rfl, mkInsertQuery_update_spec "song" wRecord (ConflictTarget.column "name") _ rfl⟩

theorem mkConflictClause_ignoreStr_eq {α : Type} (cc vv : Fragment α) :
    mkConflictClause cc vv (some ConflictOptions.ignoreStr) =
      Fragment.mk "ON CONFLICT "
        (InterpList.cons (Interp.sub (Fragment.mk "" InterpList.nil)) " DO NOTHING"
          InterpList.nil) := rfl

theorem mkConflictClause_ignoreObj_eq {α : Type} (cc vv : Fragment α)
    (t : Option ConflictTarget) :
    mkConflictClause cc vv (some (ConflictOptions.ignoreObj t)) =
      Fragment.mk "ON CONFLICT "
        (InterpList.cons (Interp.sub (mkTargetClause t)) " DO NOTHING"
          InterpList.nil) := rfl

/-- Concrete conflict clause built from an ignore policy whose column
target is the empty string. -/
def cexClauseEmptyCol : Fragment Nat :=
  mkConflictClause (sqlRaw "C") (sqlRaw "V")
    (some (ConflictOptions.ignoreObj (some (ConflictTarget.column ""))))

/-- Claim C5, counterexample: with a column target given as the empty
string, the source's truthiness check drops the target entirely, so the
clause composes to ON CONFLICT DO NOTHING rather than to ON CONFLICT
followed by the quoted empty column name, refuting the claim as stated
for every column target. -/
theorem mkConflictClause_ignore_cex :
    normWS (compose cexClauseEmptyCol).1 = "ON CONFLICT DO NOTHING".data ∧
      normWS (compose cexClauseEmptyCol).1 ≠
        normWS ("ON CONFLICT (".data ++ ((quoteStr "").data ++ ") DO NOTHING".data)) := by
  constructor
  · decide
  · decide

/-- Claim C5 (amended): the conflict clause generated from an ignore
policy composes, up to whitespace, to ON CONFLICT DO NOTHING when no
target is given (either spelling of ignore), to ON CONFLICT followed by
the parenthesized quoted column and DO NOTHING when a nonempty column
target is given, and to ON CONFLICT ON CONSTRAINT followed by the quoted
constraint and DO NOTHING when a nonempty constraint target is given; a
policy of none composes to no conflict clause at all (empty text and no
values). -/
theorem mkConflictClause_ignore_spec {α : Type} (cols vals : Fragment α) (c k : String)
    (hc : c ≠ "") (hk : k ≠ "") :
    normWS (compose (mkConflictClause cols vals (some ConflictOptions.ignoreStr))).1 =
        "ON CONFLICT DO NOTHING".data ∧
      normWS (compose (mkConflictClause cols vals
            (some (ConflictOptions.ignoreObj none)))).1 =
        "ON CONFLICT DO NOTHING".data ∧
      normWS (compose (mkConflictClause cols vals
            (some (ConflictOptions.ignoreObj (some (ConflictTarget.column c)))))).1 =
        normWS ("ON CONFLICT (".data ++ ((quoteStr c).data ++ ") DO NOTHING".data)) ∧
      normWS (compose (mkConflictClause cols vals
            (some (ConflictOptions.ignoreObj (some (ConflictTarget.constraint k)))))).1 =
        normWS ("ON CONFLICT ON CONSTRAINT ".data ++
          ((quoteStr k).data ++ " DO NOTHING".data)) ∧
      compose (mkConflictClause cols vals none) = ([], []) := by
  refine ⟨?_, ?_, ?_, ?_, rfl⟩
  · rw [mkConflictClause_ignoreStr_eq]; exact rfl
  · rw [mkConflictClause_ignoreObj_eq]; exact rfl
  · rw [mkConflictClause_ignoreObj_eq]
    have ht : mkTargetClause (some (ConflictTarget.column c)) =
        (Fragment.mk "(" (InterpList.cons (Interp.sub (sqlQuote c)) ")" InterpList.nil) :
          Fragment α) := by
      simp [mkTargetClause, hc]
    rw [ht]
    show normWS (composeF _ 0).1 = _
    rw [composeF_mk, composeL_cons_sub, composeF_mk, composeL_cons_sub,
      composeF_sqlQuote]
    simp only [composeL_nil_eq, List.length_nil, Nat.add_zero, List.append_nil]
    apply congrArg
    simp only [← List.append_assoc]
    rw [show "ON CONFLICT ".data ++ "(".data = "ON CONFLICT (".data from rfl]
    rw [List.append_assoc ("ON CONFLICT (".data ++ (quoteStr c).data)]
    rw [show ")".data ++ " DO NOTHING".data = ") DO NOTHING".data from rfl]
  · rw [mkConflictClause_ignoreObj_eq]
    have ht : mkTargetClause (some (ConflictTarget.constraint k)) =
        (Fragment.mk "ON CONSTRAINT "
          (InterpList.cons (Interp.sub (sqlQuote k)) "" InterpList.nil) : Fragment α) := by
      simp [mkTargetClause, hk]
    rw [ht]
    show normWS (composeF _ 0).1 = _
    rw [composeF_mk, composeL_cons_sub, composeF_mk, composeL_cons_sub,
      composeF_sqlQuote]
    simp only [composeL_nil_eq, List.length_nil, Nat.add_zero, List.append_nil,
      string_empty_data, List.nil_append]
    apply congrArg
    simp only [← List.append_assoc]
    rw [show "ON CONFLICT ".data ++ "ON CONSTRAINT ".data =
      "ON CONFLICT ON CONSTRAINT ".data from rfl]

/-- Claim C5, witness: the amended theorem applied to the column name
and constraint name from the repository's tests. -/
theorem mkConflictClause_ignore_spec_witness :
    (("name" : String) ≠ "" ∧ ("unique_name" : String) ≠ "") ∧
      (normWS (compose (mkConflictClause (sqlRaw "C") (sqlRaw "V" : Fragment Nat)
            (some ConflictOptions.ignoreStr))).1 = "ON CONFLICT DO NOTHING".data ∧
        normWS (compose (mkConflictClause (sqlRaw "C") (sqlRaw "V" : Fragment Nat)
              (some (ConflictOptions.ignoreObj none)))).1 = "ON CONFLICT DO NOTHING".data ∧
        normWS (compose (mkConflictClause (sqlRaw "C") (sqlRaw "V" : Fragment Nat)
              (some (ConflictOptions.ignoreObj (some (ConflictTarget.column "name")))))).1 =
          normWS ("ON CONFLICT (".data ++ ((quoteStr "name").data ++ ") DO NOTHING".data)) ∧
        normWS (compose (mkConflictClause (sqlRaw "C") (sqlRaw "V" : Fragment Nat)
              (some (ConflictOptions.ignoreObj
                (some (ConflictTarget.constraint "unique_name")))))).1 =
          normWS ("ON CONFLICT ON CONSTRAINT ".data ++
            ((quoteStr "unique_name").data ++ " DO NOTHING".data)) ∧
        compose (mkConflictClause (sqlRaw "C") (sqlRaw "V" : Fragment Nat) none) =
          ([], [])) :=
  ⟨⟨by decide, by decide⟩,
    mkConflictClause_ignore_spec (sqlRaw "C") (sqlRaw "V") "name" "unique_name"
      (by decide) (by decide)⟩

/-- Claim C2: toInsertResult returns the single row when exactly one row
is present regardless of policy; errors on more than one row regardless
of policy; and on zero rows returns absent exactly for the ignore
policies (either spelling, any target) and errors for absent options,
null conflict options, and update policies. -/
theorem toInsertResult_spec {α : Type} (opts : Option InsertOptions) :
    (∀ r : α, toInsertResult [r] opts = Except.ok (some r)) ∧
      (∀ rows : List α, 1 < rows.length →
        toInsertResult rows opts = Except.error InsertError.multipleRows) ∧
      toInsertResult ([] : List α) none = Except.error InsertError.noRows ∧
      toInsertResult ([] : List α) (some (InsertOptions.mk none)) =
        Except.error InsertError.noRows ∧
      toInsertResult ([] : List α) (some (InsertOptions.mk (some ConflictOptions.ignoreStr))) =
        Except.ok none ∧
      (∀ t : Option ConflictTarget,
        toInsertResult ([] : List α)
          (some (InsertOptions.mk (some (ConflictOptions.ignoreObj t)))) = Except.ok none) ∧
      (∀ tgt : ConflictTarget,
        toInsertResult ([] : List α)
          (some (InsertOptions.mk (some (ConflictOptions.update tgt)))) =
        Except.error InsertError.noRows) := by
  refine ⟨fun r => ?_, fun rows h => ?_, rfl, rfl, rfl, fun t => rfl, fun tgt => rfl⟩
  · simp [toInsertResult]
  · simp [toInsertResult, h]

/-- Claim C2, witness: the theorem applied to a concrete two-row list,
a singleton and the empty list. -/
theorem toInsertResult_spec_witness :
    (1 < ([10, 20] : List Nat).length) ∧
      toInsertResult ([10, 20] : List Nat) none = Except.error InsertError.multipleRows :=
  ⟨by decide, (toInsertResult_spec none).2.1 [10, 20] (by decide)⟩

/-- Truthiness of the update action of conflict options. -/
def isUpdateOption : ConflictOptions → Bool
  | ConflictOptions.update _ => true
  | _ => false

/-- Claim C6: an update conflict policy always carries a column or
constraint target; the source type for conflict options makes an update
without a target unrepresentable, so it is rejected by the static
caller contract before any statement is built, for every table and
record. -/
theorem update_requires_target (o : ConflictOptions) (h : isUpdateOption o = true) :
    ∃ tgt : ConflictTarget, o = ConflictOptions.update tgt := by
  cases o with
  | ignoreStr => exact absurd h (by decide)
  | ignoreObj t => exact absurd h (by simp [isUpdateOption])
  | update tgt => exact ⟨tgt, rfl⟩

/-- Claim C6, witness: the theorem applied to a concrete update policy. -/
theorem update_requires_target_witness :
    isUpdateOption (ConflictOptions.update (ConflictTarget.column "name")) = true ∧
      ∃ tgt : ConflictTarget,
        ConflictOptions.update (ConflictTarget.column "name") = ConflictOptions.update tgt :=
  ⟨by decide, update_requires_target _ (by decide)⟩

/-- Claim C10: the bare string spelling of the ignore conflict option is
interchangeable with the object spelling with no target: mkInsertQuery
produces an identical Fragment for both, and toInsertResult treats an
empty rows list as absent under both spellings. -/
theorem ignore_spellings_equiv {α : Type} :
    (∀ (tb : String) (r : List (String × α)),
        mkInsertQuery tb r (some (InsertOptions.mk (some ConflictOptions.ignoreStr))) =
          mkInsertQuery tb r (some (InsertOptions.mk (some (ConflictOptions.ignoreObj none))))) ∧
      toInsertResult ([] : List α)
          (some (InsertOptions.mk (some ConflictOptions.ignoreStr))) = Except.ok none ∧
      toInsertResult ([] : List α)
          (some (InsertOptions.mk (some (ConflictOptions.ignoreObj none)))) = Except.ok none :=
  ⟨fun tb r => rfl, rfl, rfl⟩

/-- Statement trace entry: transaction control statements are
distinguished from ordinary statements. -/
inductive Tr (σ : Type) : Type where
  | beginT : Tr σ
  | commitT : Tr σ
  | rollbackT : Tr σ
  | stmt : σ → Tr σ
deriving DecidableEq

/-- Outcome environment of the underlying connection for the
transaction control statements: for each of BEGIN, COMMIT and ROLLBACK,
whether sending it fails and with which error. -/
structure TxEnv (E : Type) : Type where
  beginErr : Option E
  commitErr : Option E
  rollbackErr : Option E

/-- Transaction runner from the source's DatabaseClient.transaction: send
BEGIN; run the callback (given by the trace of statements it sends and
its outcome); on success send COMMIT and return the result; on an error
from the callback or from COMMIT, send ROLLBACK inside the catch block
and re-raise — an error raised by the ROLLBACK itself propagates out of
the catch block and replaces the original error. -/
def runTransaction {σ E β : Type} (env : TxEnv E) (cb : List (Tr σ) × Except E β) :
    List (Tr σ) × Except E β :=
  match env.beginErr with
  | some e => ([Tr.beginT], Except.error e)
  | none =>
    match cb with
    | (tr, Except.ok b) =>
      match env.commitErr with
      | none => (Tr.beginT :: tr ++ [Tr.commitT], Except.ok b)
      | some e =>
        match env.rollbackErr with
        | none => (Tr.beginT :: tr ++ [Tr.commitT, Tr.rollbackT], Except.error e)
        | some e2 => (Tr.beginT :: tr ++ [Tr.commitT, Tr.rollbackT], Except.error e2)
    | (tr, Except.error e) =>
      match env.rollbackErr with
      | none => (Tr.beginT :: tr ++ [Tr.rollbackT], Except.error e)
      | some e2 => (Tr.beginT :: tr ++ [Tr.rollbackT], Except.error e2)

theorem runTransaction_ok {σ E β : Type} (env : TxEnv E) (tr : List (Tr σ)) (b : β)
    (hb : env.beginErr = none) (hc : env.commitErr = none) :
    runTransaction env ((tr, Except.ok b)) =
      (Tr.beginT :: tr ++ [Tr.commitT], Except.ok b) := by
  obtain ⟨be, ce, re⟩ := env
  have hb2 : be = none := hb
  have hc2 : ce = none := hc
  subst hb2
  subst hc2
  rfl

theorem runTransaction_err {σ E β : Type} (env : TxEnv E) (tr : List (Tr σ)) (e : E)
    (hb : env.beginErr = none) (hr : env.rollbackErr = none) :
    runTransaction env ((tr, Except.error e) : List (Tr σ) × Except E β) =
      (Tr.beginT :: tr ++ [Tr.rollbackT], Except.error e) := by
  obtain ⟨be, ce, re⟩ := env
  have hb2 : be = none := hb
  have hr2 : re = none := hr
  subst hb2
  subst hr2
  rfl

theorem runTransaction_err_rbfail {σ E β : Type} (env : TxEnv E) (tr : List (Tr σ))
    (e e2 : E) (hb : env.beginErr = none) (hr : env.rollbackErr = some e2) :
    runTransaction env ((tr, Except.error e) : List (Tr σ) × Except E β) =
      (Tr.beginT :: tr ++ [Tr.rollbackT], Except.error e2) := by
  obtain ⟨be, ce, re⟩ := env
  have hb2 : be = none := hb
  have hr2 : re = some e2 := hr
  subst hb2
  subst hr2
  rfl

/-- Connection whose ROLLBACK fails with error 2. -/
def cexTxEnv : TxEnv Nat := ⟨none, none, some 2⟩

/-- Claim C7, counterexample: when the callback raises error 1 and the
ROLLBACK itself fails with error 2, the caller observes error 2, not the
original error 1 — the rollback failure replaces the original error,
contradicting the claim's final conjunct. -/
theorem runTransaction_rollback_cex :
    (runTransaction cexTxEnv (([], Except.error 1) : List (Tr Nat) × Except Nat Unit)).2 =
        Except.error 2 ∧
      (runTransaction cexTxEnv (([], Except.error 1) : List (Tr Nat) × Except Nat Unit)).2 ≠
        Except.error 1 := by
  refine ⟨rfl, ?_⟩
  intro h
  simp [runTransaction, cexTxEnv] at h

/-- Claim C7 (amended): provided BEGIN succeeds, runTransaction issues
BEGIN, runs the callback, and on normal return issues COMMIT (when COMMIT
succeeds) and returns the callback's result; on an error raised during
the callback it issues ROLLBACK and re-raises the original error
unchanged when the ROLLBACK succeeds; when the ROLLBACK itself fails, the
rollback failure replaces the original error as what the caller
observes. -/
theorem runTransaction_spec {σ E β : Type} (env : TxEnv E) (tr : List (Tr σ))
    (hb : env.beginErr = none) :
    (∀ b : β, env.commitErr = none →
        runTransaction env ((tr, Except.ok b)) =
          (Tr.beginT :: tr ++ [Tr.commitT], Except.ok b)) ∧
      (∀ e : E, env.rollbackErr = none →
        runTransaction env ((tr, Except.error e) : List (Tr σ) × Except E β) =
          (Tr.beginT :: tr ++ [Tr.rollbackT], Except.error e)) ∧
      (∀ e e2 : E, env.rollbackErr = some e2 →
        runTransaction env ((tr, Except.error e) : List (Tr σ) × Except E β) =
          (Tr.beginT :: tr ++ [Tr.rollbackT], Except.error e2)) :=
  ⟨fun b hc => runTransaction_ok env tr b hb hc,
   fun e hr => runTransaction_err env tr e hb hr,
   fun e e2 hr => runTransaction_err_rbfail env tr e e2 hb hr⟩

/-- Claim C7, witness: the amended theorem applied to an error-free
connection, a one-statement callback trace, and a successful result. -/
theorem runTransaction_spec_witness :
    (⟨none, none, none⟩ : TxEnv Nat).beginErr = none ∧
      (⟨none, none, none⟩ : TxEnv Nat).commitErr = none ∧
      runTransaction (⟨none, none, none⟩ : TxEnv Nat)
          (([Tr.stmt 5], Except.ok 7) : List (Tr Nat) × Except Nat Nat) =
        (Tr.beginT :: [Tr.stmt 5] ++ [Tr.commitT], Except.ok 7) :=
  ⟨rfl, rfl, (runTransaction_spec (⟨none, none, none⟩ : TxEnv Nat) [Tr.stmt 5] rfl).1 7 rfl⟩

/-- Statement loop from the source's executeAll callback: send each
statement in order, stopping at the first failure. The outcome of each
statement is given by the err function. -/
def runQueries {σ E : Type} (err : σ → Option E) : List σ → List (Tr σ) × Except E Unit
  | [] => ([], Except.ok ())
  | q :: qs =>
    match err q with
    | some e => ([Tr.stmt q], Except.error e)
    | none =>
      let r := runQueries err qs
      (Tr.stmt q :: r.1, r.2)

/-- Multi-statement executor from the source's DatabaseClient.executeAll:
an empty statement list is a no-op sending nothing at all; otherwise one
transaction executes each statement in order. -/
def executeAll {σ E : Type} (env : TxEnv E) (err : σ → Option E) (qs : List σ) :
    List (Tr σ) × Except E Unit :=
  if qs.isEmpty then ([], Except.ok ())
  else runTransaction env (runQueries err qs)

theorem runQueries_ok {σ E : Type} (err : σ → Option E) (qs : List σ)
    (h : ∀ q ∈ qs, err q = none) :
    runQueries err qs = (qs.map Tr.stmt, Except.ok ()) := by
  induction qs with
  | nil => rfl
  | cons q qs ih =>
    have hq : err q = none := h q (by simp)
    simp only [runQueries, hq]
    rw [ih (fun x hx => h x (by simp [hx]))]
    simp

theorem runQueries_fail {σ E : Type} (err : σ → Option E) (qs1 : List σ) (qbad : σ)
    (qs2 : List σ) (e : E) (h1 : ∀ q ∈ qs1, err q = none) (h2 : err qbad = some e) :
    runQueries err (qs1 ++ qbad :: qs2) =
      ((qs1 ++ [qbad]).map Tr.stmt, Except.error e) := by
  induction qs1 with
  | nil => simp [runQueries, h2]
  | cons q qs ih =>
    have hq : err q = none := h1 q (by simp)
    simp only [List.cons_append, runQueries, hq, List.append_eq]
    rw [ih (fun x hx => h1 x (by simp [hx]))]
    simp

/-- Claim C8: executeAll on the empty list sends no statements at all
(no BEGIN, no COMMIT); on a non-empty list it runs exactly one
transaction executing each statement in list order — all statements in
order between one BEGIN and one COMMIT when everything succeeds, and a
rollback right after the first failing statement otherwise. -/
theorem executeAll_spec {σ E : Type} (env : TxEnv E) (err : σ → Option E) :
    executeAll env err ([] : List σ) = ([], Except.ok ()) ∧
      (∀ qs : List σ, qs ≠ [] → env.beginErr = none → env.commitErr = none →
        (∀ q ∈ qs, err q = none) →
        executeAll env err qs =
          (Tr.beginT :: qs.map Tr.stmt ++ [Tr.commitT], Except.ok ())) ∧
      (∀ (qs1 : List σ) (qbad : σ) (qs2 : List σ) (e : E),
        env.beginErr = none → env.rollbackErr = none →
        (∀ q ∈ qs1, err q = none) → err qbad = some e →
        executeAll env err (qs1 ++ qbad :: qs2) =
          (Tr.beginT :: (qs1 ++ [qbad]).map Tr.stmt ++ [Tr.rollbackT],
            Except.error e)) := by
  refine ⟨rfl, fun qs hne hb hc hall => ?_, fun qs1 qbad qs2 e hb hr h1 h2 => ?_⟩
  · rw [executeAll, if_neg (by simp [hne])]
    rw [runQueries_ok err qs hall]
    exact runTransaction_ok env _ _ hb hc
  · rw [executeAll, if_neg (by simp)]
    rw [runQueries_fail err qs1 qbad qs2 e h1 h2]
    exact runTransaction_err env _ _ hb hr

/-- Error assignment used by the C8 witness: statement 2 fails with
error 9, everything else succeeds. -/
def wErr : Nat → Option Nat := fun q => if q = 2 then some 9 else none

/-- Claim C8, witness: the theorem applied to an error-free connection
with the two-statement list where both statements succeed, and to a list
whose middle statement fails. -/
theorem executeAll_spec_witness :
    (([1, 3] : List Nat) ≠ [] ∧
        (⟨none, none, none⟩ : TxEnv Nat).beginErr = none ∧
        (⟨none, none, none⟩ : TxEnv Nat).commitErr = none ∧
        (∀ q ∈ ([1, 3] : List Nat), wErr q = none) ∧
        (∀ q ∈ ([1] : List Nat), wErr q = none) ∧ wErr 2 = some 9) ∧
      executeAll (⟨none, none, none⟩ : TxEnv Nat) wErr ([1, 3] : List Nat) =
        (Tr.beginT :: ([1, 3] : List Nat).map Tr.stmt ++ [Tr.commitT], Except.ok ()) ∧
      executeAll (⟨none, none, none⟩ : TxEnv Nat) wErr ([1] ++ 2 :: [3] : List Nat) =
        (Tr.beginT :: (([1] : List Nat) ++ [2]).map Tr.stmt ++ [Tr.rollbackT],
          Except.error 9) :=
  ⟨⟨by decide, rfl, rfl, by decide, by decide, by decide⟩,
    (executeAll_spec (⟨none, none, none⟩ : TxEnv Nat) wErr).2.1 [1, 3] (by decide) rfl rfl
      (by decide),
    (executeAll_spec (⟨none, none, none⟩ : TxEnv Nat) wErr).2.2 [1] 2 [3] 9 rfl rfl
      (by decide) (by decide)⟩

/-- Catalog query fragment from the source's DatabaseClient.clear: base
table names of the public schema. -/
def catalogFragment : Fragment Unit :=
  Fragment.mk
    "\n        SELECT table_name AS table FROM information_schema.tables\n        WHERE table_schema = 'public' AND table_type = 'BASE TABLE'\n      "
    InterpList.nil

/-- Per-table entry of the truncation list from the source: the quoted
public schema followed by the quoted table name. -/
def truncItem (tbl : String) : Fragment Unit :=
  Fragment.mk "\"public\"." (InterpList.cons (Interp.sub (sqlQuote tbl)) "" InterpList.nil)

/-- Single truncate statement from the source: all discovered tables,
joined with commas, ending in RESTART IDENTITY. -/
def truncFragment (tables : List String) : Fragment Unit :=
  Fragment.mk "\n          TRUNCATE "
    (InterpList.cons (Interp.sub (sqlJoin (tables.map truncItem) ","))
      " RESTART IDENTITY\n        " InterpList.nil)

/-- Clear operation from the source's DatabaseClient.clear under an
error-free connection, with the catalog's response given as the list of
discovered table names: inside one transaction, issue the catalog query,
and, only when some tables were discovered, the single truncate
statement. -/
def clearAllTables (tables : List String) : List (Tr (List Char)) × Except Unit Unit :=
  runTransaction (⟨none, none, none⟩ : TxEnv Unit)
    ((Tr.stmt (compose catalogFragment).1 ::
        (if tables.isEmpty then []
         else [Tr.stmt (compose (truncFragment tables)).1]),
      Except.ok ()))

/-- Modelled from the spec: expected truncate statement text, every
table quoted and schema-qualified, ending in RESTART IDENTITY. -/
def specTruncText (tables : List String) : List Char :=
  "TRUNCATE ".data ++
    (sepList [','] (tables.map (fun t => "\"public\".".data ++ (quoteStr t).data)) ++
      " RESTART IDENTITY".data)

theorem composeF_truncItem (tbl : String) (n : Nat) :
    composeF (truncItem tbl) n = ("\"public\".".data ++ (quoteStr tbl).data, []) := by
  simp [truncItem, composeF_mk, composeL_cons_sub, composeF_sqlQuote, composeL_nil_eq,
    string_empty_data]

theorem compose_truncFragment (tables : List String) :
    compose (truncFragment tables) =
      ("\n          TRUNCATE ".data ++
        (sepList [','] (tables.map (fun t => "\"public\".".data ++ (quoteStr t).data)) ++
          " RESTART IDENTITY\n        ".data), []) := by
  unfold compose truncFragment
  rw [composeF_mk, composeL_cons_sub,
    composeF_sqlJoin_noval truncItem (fun t => "\"public\".".data ++ (quoteStr t).data)
      (fun s n => composeF_truncItem s n)]
  simp [composeL_nil_eq]

theorem normWS_trunc_template (j : List Char) :
    normWS ("\n          TRUNCATE ".data ++ (j ++ " RESTART IDENTITY\n        ".data)) =
      normWS ("TRUNCATE ".data ++ (j ++ " RESTART IDENTITY".data)) := by
  unfold normWS
  rw [show "\n          TRUNCATE ".data ++ (j ++ " RESTART IDENTITY\n        ".data) =
    (["\n          TRUNCATE ".data, j, " RESTART IDENTITY\n        ".data] :
      List (List Char)).flatten by simp]
  rw [show "TRUNCATE ".data ++ (j ++ " RESTART IDENTITY".data) =
    (["TRUNCATE ".data, j, " RESTART IDENTITY".data] : List (List Char)).flatten by simp]
  rw [collapseAux_join, collapseAux_join]
  have key :
      collapseChunks (["\n          TRUNCATE ".data, j,
          " RESTART IDENTITY\n        ".data] : List (List Char)) true =
        collapseChunks (["TRUNCATE ".data, j, " RESTART IDENTITY".data] :
          List (List Char)) true ++ [' '] := by
    apply ccSpace_congr rfl rfl
    apply ccSpace_congr rfl rfl
    exact (fun b => by cases b <;> rfl :
      ∀ b, collapseChunks ([" RESTART IDENTITY\n        ".data] : List (List Char)) b =
        collapseChunks ([" RESTART IDENTITY".data] : List (List Char)) b ++ [' ']) _
  rw [key, wsTrimEnd_append_space]

/-- Claim C9: clearAllTables runs inside one transaction; it issues the
catalog query for base tables of the default schema; with no discovered
tables it issues no truncate statement at all; otherwise it issues
exactly one truncate statement — never one per table — listing every
discovered table quoted and schema-qualified and ending in RESTART
IDENTITY, up to whitespace. -/
theorem clearAllTables_spec (tables : List String) :
    (tables = [] → clearAllTables tables =
      ([Tr.beginT, Tr.stmt (compose catalogFragment).1, Tr.commitT], Except.ok ())) ∧
      (tables ≠ [] → clearAllTables tables =
        ([Tr.beginT, Tr.stmt (compose catalogFragment).1,
          Tr.stmt (compose (truncFragment tables)).1, Tr.commitT], Except.ok ()) ∧
        normWS (compose (truncFragment tables)).1 = normWS (specTruncText tables)) ∧
      normWS (compose catalogFragment).1 =
        ("SELECT table_name AS table FROM information_schema.tables WHERE table_schema = 'public' AND table_type = 'BASE TABLE'").data := by
  refine ⟨fun h => ?_, fun h => ⟨?_, ?_⟩, by decide⟩
  · subst h
    rfl
  · rw [clearAllTables, if_neg (by simp [h])]
    rfl
  · rw [compose_truncFragment]
    unfold specTruncText
    exact normWS_trunc_template _

/-- Tables discovered by the catalog in the C9 witness. -/
def wTables : List String := ["song", "artist"]

/-- Claim C9, witness: the theorem applied to a two-table catalog
response and to the empty response. -/
theorem clearAllTables_spec_witness :
    (wTables ≠ [] ∧ ([] : List String) = []) ∧
      (clearAllTables wTables =
          ([Tr.beginT, Tr.stmt (compose catalogFragment).1,
            Tr.stmt (compose (truncFragment wTables)).1, Tr.commitT], Except.ok ()) ∧
        normWS (compose (truncFragment wTables)).1 = normWS (specTruncText wTables)) ∧
      clearAllTables [] =
        ([Tr.beginT, Tr.stmt (compose catalogFragment).1, Tr.commitT], Except.ok ()) :=
  ⟨⟨by decide, rfl⟩, (clearAllTables_spec wTables).2.1 (by decide),
    (clearAllTables_spec []).1 rfl⟩

end PgFusion
